import Mathlib

/-!
Verification development for the `spectral_analizator` repository
(`src/arduino_spectr.py` and `src/ex2_Test.py`).

Bytes are modelled as `Nat` (all source values are produced mod 256 where it
matters).  Byte buffers are `List Nat`.  32-bit floats are decoded through an
exact IEEE-754-to-rational interpretation (`f32ToRat`); floating point rounding
of downstream arithmetic is idealised as exact rational arithmetic.
-/

/-- `fletcher_checksum` from `arduino_spectr.py` lines 20-26 (identical copy in
`ex2_Test.py` lines 31-37): two mod-256 accumulators, `CK_A += byte`,
`CK_B += CK_A`, starting from `(0, 0)`. -/
def fletcher_checksum (data : List Nat) : Nat × Nat :=
  data.foldl
    (fun ck byte =>
      let a := (ck.1 + byte) % 256
      ((a, (ck.2 + a) % 256) : Nat × Nat))
    (0, 0)

/-- Little-endian 16-bit read, as done by `struct.unpack('<H', buf[i:i+2])`:
the first byte is the low byte.  Out-of-range reads default to 0; every use in
this development is guarded by a length check, as in the source. -/
def leU16 (l : List Nat) : Nat :=
  l.getD 0 0 + 256 * l.getD 1 0

/-- Little-endian 16-bit encode (`struct.pack('<H', x)`). -/
def u16le (x : Nat) : List Nat :=
  [x % 256, x / 256 % 256]

/-- Little-endian 64-bit encode (`struct.pack('<Q', x)`). -/
def u64le (x : Nat) : List Nat :=
  [x % 256, x / 2 ^ 8 % 256, x / 2 ^ 16 % 256, x / 2 ^ 24 % 256,
   x / 2 ^ 32 % 256, x / 2 ^ 40 % 256, x / 2 ^ 48 % 256, x / 2 ^ 56 % 256]

/-- Little-endian 64-bit read of an 8-byte list. -/
def leU64 (l : List Nat) : Nat :=
  l.getD 0 0 + 2 ^ 8 * l.getD 1 0 + 2 ^ 16 * l.getD 2 0 + 2 ^ 24 * l.getD 3 0 +
    2 ^ 32 * l.getD 4 0 + 2 ^ 40 * l.getD 5 0 + 2 ^ 48 * l.getD 6 0 +
    2 ^ 56 * l.getD 7 0

/-- Group a byte list into little-endian 32-bit words, one per 4 bytes
(`struct.unpack` of consecutive `f` items reads 4 bytes each, least
significant byte first); a trailing group of fewer than 4 bytes is dropped
(uses of this function are guarded by the exact-size check below, as
`struct.unpack` raises on a size mismatch). -/
def toWords : List Nat → List Nat
  | a :: b :: c :: d :: rest => (a + 2 ^ 8 * b + 2 ^ 16 * c + 2 ^ 24 * d) :: toWords rest
  | _ => []

/-- Exact rational value of an IEEE-754 single-precision bit pattern
(`struct.unpack('<f', ...)`).  Exponent 255 encodes infinities and NaNs, which
have no rational counterpart; they are mapped to 0 here — no claim in this
development depends on non-finite floats. -/
def f32ToRat (w : Nat) : ℚ :=
  let sign : ℚ := if w / 2 ^ 31 % 2 = 1 then -1 else 1
  let ex : Nat := w / 2 ^ 23 % 256
  let frac : Nat := w % 2 ^ 23
  if ex = 0 then sign * ((frac : ℚ) / 2 ^ 149)
  else if ex = 255 then 0
  else sign * ((2 ^ 23 + frac : ℚ) * 2 ^ ex / 2 ^ 150)

/-- The failure exits of `parse_response` (`arduino_spectr.py` lines 28-74).
The Python function returns `(None, None)` from every failure branch; the
branches are distinguished in the source by their log messages and are kept
distinguishable here.  `structError` is the `struct.error` raised by
`struct.unpack(f'<{num_floats}f', data)` when `len(data) != 4*num_floats`,
caught by the function's `try`/`except` (lines 72-74) and turned into the same
`(None, None)` return. -/
inductive ParseError where
  | tooShort
  | badStart
  | badCmd
  | incomplete
  | crcMismatch
  | oddFloats
  | structError
deriving DecidableEq

/-- Result of `parse_response`: either the `(mags, freqs)` pair or the
`(None, None)` failure value, tagged with the branch that produced it. -/
inductive ParseResult where
  | ok (mags freqs : List ℚ)
  | fail (e : ParseError)
deriving DecidableEq

/-- Spec taxonomy: which failure branches the spec's `decodeFrame` calls
`Invalid` (bad marker / bad command / checksum mismatch). -/
def ParseError.isInvalid : ParseError → Bool
  | .badStart => true
  | .badCmd => true
  | .crcMismatch => true
  | _ => false

/-- Spec taxonomy: which failure branches the spec's `decodeFrame` calls
`NeedMoreData` (not enough bytes buffered yet). -/
def ParseError.isNeedMoreData : ParseError → Bool
  | .tooShort => true
  | .incomplete => true
  | _ => false

/-- The float-extraction stage of `parse_response`
(`arduino_spectr.py` lines 57-66), applied to `data = buffer[4:4+payload_len]`:
`num_floats = len(data) // 4`; an odd float count is rejected; then
`struct.unpack(f'<{num_floats}f', data)` (which raises `struct.error` unless
`len(data) == 4*num_floats`; the exception is caught by the enclosing
`try`/`except`); `mags` is the first half, `freqs` the second half divided by
`1e6`. -/
def decodeFloats (data : List Nat) : ParseResult :=
  let num_floats := data.length / 4
  if num_floats % 2 ≠ 0 then .fail .oddFloats
  else if data.length ≠ 4 * num_floats then .fail .structError
  else
    let float_data := (toWords data).map f32ToRat
    .ok (float_data.take (num_floats / 2))
      ((float_data.drop (num_floats / 2)).map (fun x => x / 1000000))

/-- The combined Fletcher checksum `(calc_crc2 << 8) | calc_crc1`
(`arduino_spectr.py` line 51).  Both accumulators are reduced mod 256 at every
step, so `calc_crc1 < 256` and the bitwise-or of the shifted high byte with the
low byte equals `256 * calc_crc2 + calc_crc1`, which is how the value is
embedded here (see `fletcher_checksum_lt`). -/
def calculated_crc (data : List Nat) : Nat :=
  256 * (fletcher_checksum data).2 + (fletcher_checksum data).1

/-- `parse_response(buffer)` from `arduino_spectr.py` lines 28-74.
Checks, in source order: `len(buffer) < 6`; `buffer[0] != 0xBB`;
`buffer[1] != 0xC2`; `payload_len = struct.unpack('<H', buffer[2:4])`;
`len(buffer) < 6 + payload_len`; received CRC (`struct.unpack('<H',
buffer[4+payload_len:6+payload_len])`) versus the computed CRC over
`buffer[:4+payload_len]`; then the float stage on `buffer[4:4+payload_len]`. -/
def parse_response (buffer : List Nat) : ParseResult :=
  if buffer.length < 6 then .fail .tooShort
  else if buffer.getD 0 0 ≠ 0xBB then .fail .badStart
  else if buffer.getD 1 0 ≠ 0xC2 then .fail .badCmd
  else
    let payload_len := leU16 (buffer.drop 2)
    if buffer.length < 6 + payload_len then .fail .incomplete
    else
      let received_crc := leU16 (buffer.drop (4 + payload_len))
      if received_crc ≠ calculated_crc (buffer.take (4 + payload_len)) then
        .fail .crcMismatch
      else
        decodeFloats ((buffer.drop 4).take payload_len)

/-- The query command built by `get_spectrum` (`arduino_spectr.py` lines
76-89): `struct.pack('<BBHQQBBB', 0xBB, 0xC2, 19, start, stop, 2, 3, 0)`
followed by the two Fletcher checksum bytes over those 23 bytes. -/
def get_spectrum_command (start_freq stop_freq : Nat) : List Nat :=
  let command :=
    [0xBB, 0xC2] ++ u16le 19 ++ u64le start_freq ++ u64le stop_freq ++ [2, 3, 0]
  command ++ [(fletcher_checksum command).1, (fletcher_checksum command).2]

theorem fletcher_checksum_lt (data : List Nat) :
    (fletcher_checksum data).1 < 256 ∧ (fletcher_checksum data).2 < 256 := by
  suffices h : ∀ init : Nat × Nat, init.1 < 256 → init.2 < 256 →
      (data.foldl
        (fun ck byte =>
          let a := (ck.1 + byte) % 256
          ((a, (ck.2 + a) % 256) : Nat × Nat)) init).1 < 256 ∧
      (data.foldl
        (fun ck byte =>
          let a := (ck.1 + byte) % 256
          ((a, (ck.2 + a) % 256) : Nat × Nat)) init).2 < 256 by
    exact h (0, 0) (by norm_num) (by norm_num)
  induction data with
  | nil => intro init h1 h2; exact ⟨h1, h2⟩
  | cons b rest ih =>
    intro init h1 h2
    exact ih _ (Nat.mod_lt _ (by norm_num)) (Nat.mod_lt _ (by norm_num))

/-- The frame-extraction loop of `SpectrumWorker.run`
(`arduino_spectr.py` lines 205-219), parameterised by fuel (each completed
iteration consumes at least 6 bytes, so `buffer.length` is enough fuel —
see `ingest`).  One iteration: find the first `0xBB` (`buffer.find(b'\xBB')`);
if absent, `break` (the buffer is left as is); left-trim to the marker
(`buffer = buffer[start_idx:]`); `break` if fewer than 4 bytes remain;
`packet_len = 6 + struct.unpack('<H', buffer[2:4])`; `break` if the buffer is
shorter than `packet_len`; slice off `packet = buffer[:packet_len]`
(unconditionally, before parsing), parse it, and emit `(mags, freqs)` when the
parse succeeds.  Returns the emitted pairs in order and the final buffer. -/
def reassembleGo : Nat → List Nat → List (List ℚ × List ℚ) × List Nat
  | 0, buf => ([], buf)
  | fuel + 1, buf =>
    match buf.findIdx? (fun b => b == 0xBB) with
    | none => ([], buf)
    | some start_idx =>
      let b := buf.drop start_idx
      if b.length < 4 then ([], b)
      else
        let packet_len := 6 + leU16 (b.drop 2)
        if b.length < packet_len then ([], b)
        else
          let packet := b.take packet_len
          let rest := b.drop packet_len
          let out := reassembleGo fuel rest
          match parse_response packet with
          | .ok mags freqs => ((mags, freqs) :: out.1, out.2)
          | .fail _ => out

/-- One ingestion pass of the Stream Reassembler over the accumulated buffer:
the `while True` loop of `SpectrumWorker.run` run to completion. -/
def ingest (buf : List Nat) : List (List ℚ × List ℚ) × List Nat :=
  reassembleGo buf.length buf

/-- Build a response frame for a given payload exactly as the device protocol
prescribes: header `0xBB 0xC2`, little-endian payload length, payload, then
the two Fletcher checksum bytes over everything so far.  Used to construct
concrete frames in witnesses and counterexamples. -/
def mkPacket (payload : List Nat) : List Nat :=
  let body := [0xBB, 0xC2] ++ u16le payload.length ++ payload
  body ++ [(fletcher_checksum body).1, (fletcher_checksum body).2]

/-- Events a single iteration of the `SpectrumWorker.run` session loop
(`arduino_spectr.py` lines 194-249) can observe at its read:
`chunk bytes` — `self.ser.read(1024)` returns `bytes` (possibly empty on
timeout); `ioError` — the read (or anything else in the loop body) raises;
`shutdown` — the GUI cleared `self.running` before this iteration. -/
inductive ReadEvent where
  | chunk (bytes : List Nat)
  | ioError
  | shutdown
deriving DecidableEq

/-- Observable state of the `SpectrumWorker` session: the `running` flag, the
primary transport's `is_open` status, the reassembly buffer, and the frames
emitted so far (`data_updated` signals). -/
structure SessionState where
  running : Bool
  serOpen : Bool
  buffer : List Nat
  frames : List (List ℚ × List ℚ)
deriving DecidableEq

/-- One iteration of the `while self.running` loop of `SpectrumWorker.run`
(`arduino_spectr.py` lines 194-249).
`shutdown`: the loop condition fails; the `finally` block closes the ports and
clears `running` (lines 242-249).
`chunk`: if the transport reports closed (`not self.ser.is_open`, line 195)
the loop first reconnects — `connect_to_device` retries until success (lines
196-199) — note the reassembly buffer is NOT touched by this path; then the
read's bytes are appended and the frame-extraction loop runs (`if data:`
guards the empty read).
`ioError`: the exception propagates to the `except` handler (lines 238-241),
which clears the buffer, and the `finally` block closes the ports and sets
`self.running = False` (lines 242-249): the session loop exits. -/
def runStep (s : SessionState) (ev : ReadEvent) : SessionState :=
  if s.running = false then s
  else
    match ev with
    | .shutdown => { s with running := false, serOpen := false }
    | .ioError => { s with running := false, serOpen := false, buffer := [] }
    | .chunk bytes =>
      let s1 := if s.serOpen = false then { s with serOpen := true } else s
      if bytes.isEmpty then s1
      else
        let out := ingest (s1.buffer ++ bytes)
        { s1 with buffer := out.2, frames := s1.frames ++ out.1 }

/-- Per-range detection state of `SpectrumAnalyzerApp`
(`ex2_Test.py`): `stability_counter[i]` (line 146) and
`alert_flags[i]['high']` (line 97). -/
structure DetState where
  counter : Nat
  alertActive : Bool
deriving DecidableEq

/-- One polling cycle of the per-range alert logic in
`SpectrumAnalyzerApp.background_processing` (`ex2_Test.py` lines 303-311),
for a cycle whose working amplitude is `amp` (`filtered_mags.max()`) and whose
high threshold is `hi` (`threshold_high = ema_value + 1`, recomputed each
cycle); `threshold_low = threshold_high - 0.5`
(`hysteresis_threshold = 0.5`, line 144).  If `amp > hi` the stability counter
is incremented and, once it reaches `stability_duration = 3` (line 145) with
the range not already alert-active, the alert flag is set and one alert is
emitted (returned Boolean); if `amp <= threshold_low` the flag and the counter
are reset; otherwise nothing changes. -/
def detStep (amp hi : ℚ) (st : DetState) : DetState × Bool :=
  if hi < amp then
    let c := st.counter + 1
    if 3 ≤ c ∧ st.alertActive = false then (⟨c, true⟩, true)
    else (⟨c, st.alertActive⟩, false)
  else if amp ≤ hi - 1 / 2 then (⟨0, false⟩, false)
  else (st, false)

/-- Run the per-range alert logic over a sequence of polling cycles, each
cycle given as `(working amplitude, threshold_high)`; returns the final state
and the number of alerts emitted. -/
def runDet : List (ℚ × ℚ) → DetState → DetState × Nat
  | [], st => (st, 0)
  | (amp, hi) :: rest, st =>
    let step := detStep amp hi st
    let out := runDet rest step.1
    (out.1, (if step.2 then 1 else 0) + out.2)

/-- One monitored range of `ex2_Test.py`: an entry of `self.scan_ranges`
(line 91), a `(start, stop, threshold)` tuple whose threshold is `None` until
calibration sets it. -/
structure SRange where
  start : Int
  stop : Int
  threshold : Option ℚ
deriving DecidableEq

/-- Python `round(x, 1)`: round to one decimal place, ties to even
(Python 3 `round` uses banker's rounding; the binary-float representation
error of the source is idealised away by working in ℚ). -/
def round1 (x : ℚ) : ℚ :=
  let y := 10 * x
  let f : Int := ⌊y⌋
  let r := y - (f : ℚ)
  (if r < 1 / 2 then (f : ℚ)
   else if 1 / 2 < r then (f : ℚ) + 1
   else if f % 2 = 0 then (f : ℚ) else (f : ℚ) + 1) / 10

/-- `np.median` on a nonempty sample list: sort; odd length takes the middle
element, even length averages the two middle elements.  (Called only on
nonempty lists in the source; the empty case defaults to 0.) -/
def npMedian (l : List ℚ) : ℚ :=
  let s := l.insertionSort (· ≤ ·)
  let n := s.length
  if n % 2 = 1 then s.getD (n / 2) 0
  else (s.getD (n / 2 - 1) 0 + s.getD (n / 2) 0) / 2

/-- Python `max` over a nonempty list (left fold; `max([])` raises and is
never reached in the source). -/
def pyMax : List ℚ → ℚ
  | [] => 0
  | x :: xs => xs.foldl max x

/-- The per-range body of `SpectrumAnalyzerApp.auto_calibrate_thresholds`
(`ex2_Test.py` lines 187-199): collect `mags.max()` for each of the (up to
500) queries that succeeded — `queries` lists each query's `mags.max()` or
`none` for a failed query — and, if any sample was collected, set the range's
threshold to `round(median(amplitudes) + 1, 1)`; otherwise leave the range
unchanged. -/
def calibrateRangeInitial (r : SRange) (queries : List (Option ℚ)) : SRange :=
  let amplitudes := queries.filterMap id
  if amplitudes.isEmpty then r
  else { r with threshold := some (round1 (npMedian amplitudes + 1)) }

/-- The per-range body of one pass of
`SpectrumAnalyzerApp.calibration_process` (`ex2_Test.py` lines 405-416):
collect `mags.max()` for each of the (up to 10) queries that succeeded and,
if any sample was collected, set the range's threshold to
`round(max(amplitudes) + 1, 1)`; otherwise leave the range unchanged. -/
def calibrateRangeContinuous (r : SRange) (queries : List (Option ℚ)) : SRange :=
  let amplitudes := queries.filterMap id
  if amplitudes.isEmpty then r
  else { r with threshold := some (round1 (pyMax amplitudes + 1)) }

/-- The `for i, (start, stop, _) in enumerate(self.scan_ranges)` loop of
`auto_calibrate_thresholds`, threading the running index `i`. -/
def calibRangesInitial (i : Nat) (outcomes : Nat → List (Option ℚ)) :
    List SRange → List SRange
  | [] => []
  | r :: rs => calibrateRangeInitial r (outcomes i) :: calibRangesInitial (i + 1) outcomes rs

/-- The `for i, (start, stop, _) in enumerate(self.scan_ranges)` loop of one
`calibration_process` pass, threading the running index `i`. -/
def calibRangesContinuous (i : Nat) (outcomes : Nat → List (Option ℚ)) :
    List SRange → List SRange
  | [] => []
  | r :: rs => calibrateRangeContinuous r (outcomes i) :: calibRangesContinuous (i + 1) outcomes rs

/-- `SpectrumAnalyzerApp.auto_calibrate_thresholds` (`ex2_Test.py` lines
185-201) over all ranges: `connOpen` is whether `self.serial_conn` is set;
`outcomes i` lists the per-query `mags.max()` results for range `i`.  With no
open transport the method only logs (line 201) and every range is left
untouched. -/
def auto_calibrate_thresholds (connOpen : Bool) (ranges : List SRange)
    (outcomes : Nat → List (Option ℚ)) : List SRange :=
  if connOpen then calibRangesInitial 0 outcomes ranges
  else ranges

/-- One pass of the 2-minute recalibration loop
`SpectrumAnalyzerApp.calibration_process` (`ex2_Test.py` lines 400-418) over
all ranges.  With no open transport (`self.serial_conn is None`) the first
`serial_conn.write` raises before any threshold is written, so every range is
left untouched — modelled by the `connOpen` guard. -/
def calibration_process_pass (connOpen : Bool) (ranges : List SRange)
    (outcomes : Nat → List (Option ℚ)) : List SRange :=
  if connOpen then calibRangesContinuous 0 outcomes ranges
  else ranges

/-- The four parallel per-range lists of `SpectrumAnalyzerApp`
(`ex2_Test.py`): `self.scan_ranges` (line 91), `self.alert_flags` (line 97,
each entry the `{'high': bool}` dict), `self.ema_values` (line 142), and
`self.stability_counter` (line 146). -/
structure RangeRegistry where
  scan_ranges : List SRange
  alert_flags : List Bool
  ema_values : List (Option ℚ)
  stability_counter : List Nat
deriving DecidableEq

/-- The lockstep invariant: the four per-range lists have equal length. -/
def registryInvariant (s : RangeRegistry) : Prop :=
  s.alert_flags.length = s.scan_ranges.length ∧
  s.ema_values.length = s.scan_ranges.length ∧
  s.stability_counter.length = s.scan_ranges.length

instance (s : RangeRegistry) : Decidable (registryInvariant s) := by
  unfold registryInvariant; infer_instance

/-- Python `int(q)`: truncation toward zero. -/
def pyInt (q : ℚ) : Int :=
  q.num.tdiv q.den

/-- `SpectrumAnalyzerApp.add_range` (`ex2_Test.py` lines 341-352): three
dialogs ask for start (MHz), stop (MHz), threshold; each may be cancelled
(`None`).  Only when all three are answered does the method append
`(int(start*1e6), int(stop*1e6), threshold)` to `scan_ranges` together with a
fresh alert flag, EMA value and stability counter. -/
def add_range (s : RangeRegistry)
    (start_freq stop_freq threshold : Option ℚ) : RangeRegistry :=
  match start_freq, stop_freq, threshold with
  | some a, some b, some t =>
    { scan_ranges := s.scan_ranges ++ [⟨pyInt (a * 1000000), pyInt (b * 1000000), some t⟩],
      alert_flags := s.alert_flags ++ [false],
      ema_values := s.ema_values ++ [none],
      stability_counter := s.stability_counter ++ [0] }
  | _, _, _ => s

/-- `SpectrumAnalyzerApp.edit_range` (`ex2_Test.py` lines 356-370): with a
listbox selection `index` and all three dialogs answered, replaces
`scan_ranges[index]`; the other three lists are untouched.  An empty
selection (modelled by `index = none`) or any cancelled dialog leaves the
registry unchanged. -/
def edit_range (s : RangeRegistry) (index : Option Nat)
    (start_freq stop_freq threshold : Option ℚ) : RangeRegistry :=
  match index, start_freq, stop_freq, threshold with
  | some i, some a, some b, some t =>
    { s with scan_ranges :=
        s.scan_ranges.set i ⟨pyInt (a * 1000000), pyInt (b * 1000000), some t⟩ }
  | _, _, _, _ => s

/-- `SpectrumAnalyzerApp.delete_range` (`ex2_Test.py` lines 374-388): with a
listbox selection `index`, deletes entry `index` from all four lists; an
empty selection leaves the registry unchanged.  (The listbox is rebuilt from
`scan_ranges`, so a selected `index` is always in range.) -/
def delete_range (s : RangeRegistry) (index : Option Nat) : RangeRegistry :=
  match index with
  | some i =>
    { scan_ranges := s.scan_ranges.eraseIdx i,
      alert_flags := s.alert_flags.eraseIdx i,
      ema_values := s.ema_values.eraseIdx i,
      stability_counter := s.stability_counter.eraseIdx i }
  | none => s

/-- C9: for every input byte buffer, the frame parser of the arduino variant
is total: `parse_response` always returns normally with either a pair of
decoded sample arrays or the failure value `(None, None)` — every raising
primitive of the body (`struct.unpack` on a wrong-sized buffer) is modelled
explicitly and funnelled by the `try`/`except` into the failure value, so no
exception reaches the caller. -/
theorem C9_parse_response_total (buffer : List Nat) :
    (∃ mags freqs, parse_response buffer = .ok mags freqs) ∨
    (∃ e, parse_response buffer = .fail e) := by
  cases h : parse_response buffer with
  | ok mags freqs => exact Or.inl ⟨mags, freqs, rfl⟩
  | fail e => exact Or.inr ⟨e, rfl⟩

/-- C10: every Range Registry operation of the ex2 variant (`add_range`,
`edit_range`, `delete_range`) preserves the invariant that the four parallel
per-range lists — `scan_ranges`, `alert_flags`, `ema_values`,
`stability_counter` — have equal length. -/
theorem C10_registry_lockstep (s : RangeRegistry) (hinv : registryInvariant s) :
    (∀ a b t, registryInvariant (add_range s a b t)) ∧
    (∀ i a b t, registryInvariant (edit_range s i a b t)) ∧
    (∀ i, registryInvariant (delete_range s i)) := by
  obtain ⟨h1, h2, h3⟩ := hinv
  refine ⟨?_, ?_, ?_⟩
  · intro a b t
    cases a <;> cases b <;> cases t <;>
      simp_all [add_range, registryInvariant]
  · intro i a b t
    cases i <;> cases a <;> cases b <;> cases t <;>
      simp_all [edit_range, registryInvariant]
  · intro i
    cases i with
    | none => simpa [delete_range, registryInvariant] using ⟨h1, h2, h3⟩
    | some i =>
      simp only [delete_range, registryInvariant, List.length_eraseIdx]
      rw [h1, h2, h3]
      exact ⟨rfl, rfl, rfl⟩

theorem C10_witness :
    registryInvariant (⟨[⟨1, 2, none⟩], [false], [none], [0]⟩ : RangeRegistry) ∧
    registryInvariant (delete_range ⟨[⟨1, 2, none⟩], [false], [none], [0]⟩ (some 0)) ∧
    registryInvariant (edit_range ⟨[⟨1, 2, none⟩], [false], [none], [0]⟩ none none none none) :=
  ⟨by decide,
   (C10_registry_lockstep ⟨[⟨1, 2, none⟩], [false], [none], [0]⟩ (by decide)).2.2 (some 0),
   (C10_registry_lockstep ⟨[⟨1, 2, none⟩], [false], [none], [0]⟩ (by decide)).2.1 none none none none⟩

theorem toWords_length : ∀ data : List Nat, data.length % 4 = 0 →
    (toWords data).length = data.length / 4
  | [], _ => by simp [toWords]
  | [a], h => by simp at h
  | [a, b], h => by simp at h
  | [a, b, c], h => by simp at h
  | a :: b :: c :: d :: rest, h => by
    have hrest : rest.length % 4 = 0 := by
      simp only [List.length_cons] at h; omega
    simp only [toWords, List.length_cons]
    rw [toWords_length rest hrest]
    omega

/-- C4 (amended): for every frame payload whose length is a multiple of 4,
interpreted as `n = len/4` little-endian 32-bit floats: if `n = 2m` is even,
the decoder returns exactly `m` amplitudes (the floats of the first half)
positionally paired with exactly `m` frequencies (the floats of the second
half, each divided by 1e6); if `n` is odd, decoding fails (the
`MalformedPayload` branch) and yields no samples.  (The original claim,
quantified over all payloads, fails on lengths that are not multiples of 4:
see the counterexample.) -/
theorem C4_spectrum_decoder (data : List Nat) (h4 : data.length % 4 = 0) :
    (data.length / 4 % 2 = 1 → decodeFloats data = .fail .oddFloats) ∧
    (∀ m, data.length / 4 = 2 * m →
      decodeFloats data =
        .ok (((toWords data).take m).map f32ToRat)
          (((toWords data).drop m).map (fun w => f32ToRat w / 1000000)) ∧
      (((toWords data).take m).map f32ToRat).length = m ∧
      (((toWords data).drop m).map (fun w => f32ToRat w / 1000000)).length = m) := by
  constructor
  · intro hodd
    simp [decodeFloats, hodd]
  · intro m hm
    have hlen8 : data.length = 8 * m := by omega
    have hw : (toWords data).length = 2 * m := by rw [toWords_length data h4, hm]
    have hdiv : 2 * m / 2 = m := by omega
    refine ⟨?_, ?_, ?_⟩
    · simp only [decodeFloats, hm, hdiv]
      rw [if_neg (by omega), if_neg (by omega), ← List.map_take, ← List.map_drop,
        List.map_map]
      rfl
    · simp only [List.length_map, List.length_take, hw]; omega
    · simp only [List.length_map, List.length_drop, hw]; omega

theorem C4_counterexample :
    parse_response (mkPacket [0, 0, 0, 0, 0, 0, 0, 0, 0]) = .fail .structError ∧
    decodeFloats [0, 0, 0, 0, 0, 0, 0, 0, 0] = .fail .structError ∧
    (9 : Nat) / 4 = 2 * 1 := by
  refine ⟨by decide, by decide, by decide⟩

theorem C4_witness :
    (8 : Nat) % 4 = 0 ∧
    decodeFloats [0, 0, 0, 0, 0, 0, 0, 0] = .ok [f32ToRat 0] [f32ToRat 0 / 1000000] := by
  refine ⟨by decide, ?_⟩
  have h := ((C4_spectrum_decoder [0, 0, 0, 0, 0, 0, 0, 0] (by decide)).2 1 (by decide)).1
  simpa [toWords] using h

/-- C3: for a buffer of at least 6 bytes, `parse_response` (the spec's
`decodeFrame`): fails with an `Invalid`-class error (never a
`NeedMoreData`-class one) when `buffer[0] != 0xBB` or `buffer[1] != 0xC2`;
fails with the `NeedMoreData`-class `incomplete` error when the buffer holds
fewer than `6 + payloadLength` bytes (payloadLength read little-endian at
offset 2); fails with the `Invalid`-class `crcMismatch` error when the
trailing little-endian u16 checksum differs from `(b<<8)|a` over
`buffer[0:4+payloadLength]`; and succeeds only when every one of those checks
passes. -/
theorem C3_decode_frame_checks (buffer : List Nat) (h6 : 6 ≤ buffer.length) :
    ((buffer.getD 0 0 ≠ 0xBB ∨ buffer.getD 1 0 ≠ 0xC2) →
      ∃ e, parse_response buffer = .fail e ∧
        e.isInvalid = true ∧ e.isNeedMoreData = false) ∧
    (buffer.getD 0 0 = 0xBB → buffer.getD 1 0 = 0xC2 →
      buffer.length < 6 + leU16 (buffer.drop 2) →
      parse_response buffer = .fail .incomplete ∧
      ParseError.incomplete.isNeedMoreData = true ∧
      ParseError.incomplete.isInvalid = false) ∧
    (buffer.getD 0 0 = 0xBB → buffer.getD 1 0 = 0xC2 →
      6 + leU16 (buffer.drop 2) ≤ buffer.length →
      leU16 (buffer.drop (4 + leU16 (buffer.drop 2))) ≠
        calculated_crc (buffer.take (4 + leU16 (buffer.drop 2))) →
      parse_response buffer = .fail .crcMismatch ∧
      ParseError.crcMismatch.isInvalid = true ∧
      ParseError.crcMismatch.isNeedMoreData = false) ∧
    (∀ mags freqs, parse_response buffer = .ok mags freqs →
      buffer.getD 0 0 = 0xBB ∧ buffer.getD 1 0 = 0xC2 ∧
      6 + leU16 (buffer.drop 2) ≤ buffer.length ∧
      leU16 (buffer.drop (4 + leU16 (buffer.drop 2))) =
        calculated_crc (buffer.take (4 + leU16 (buffer.drop 2)))) := by
  have hlt : ¬ buffer.length < 6 := by omega
  refine ⟨?_, ?_, ?_, ?_⟩
  · intro h
    by_cases h0 : buffer.getD 0 0 = 0xBB
    · have h1 : buffer.getD 1 0 ≠ 0xC2 := by tauto
      refine ⟨.badCmd, ?_, rfl, rfl⟩
      simp only [parse_response]
      rw [if_neg hlt, if_neg (not_not_intro h0), if_pos h1]
    · refine ⟨.badStart, ?_, rfl, rfl⟩
      simp only [parse_response]
      rw [if_neg hlt, if_pos h0]
  · intro h0 h1 hshort
    refine ⟨?_, rfl, rfl⟩
    simp only [parse_response]
    rw [if_neg hlt, if_neg (not_not_intro h0), if_neg (not_not_intro h1), if_pos hshort]
  · intro h0 h1 hlen hcrc
    have hns : ¬ buffer.length < 6 + leU16 (buffer.drop 2) := by omega
    refine ⟨?_, rfl, rfl⟩
    simp only [parse_response]
    rw [if_neg hlt, if_neg (not_not_intro h0), if_neg (not_not_intro h1), if_neg hns,
      if_pos hcrc]
  · intro mags freqs hok
    simp only [parse_response] at hok
    rw [if_neg hlt] at hok
    by_cases h0 : buffer.getD 0 0 = 0xBB
    · rw [if_neg (not_not_intro h0)] at hok
      by_cases h1 : buffer.getD 1 0 = 0xC2
      · rw [if_neg (not_not_intro h1)] at hok
        by_cases hlen : buffer.length < 6 + leU16 (buffer.drop 2)
        · rw [if_pos hlen] at hok
          exact absurd hok (by simp)
        · rw [if_neg hlen] at hok
          by_cases hcrc : leU16 (buffer.drop (4 + leU16 (buffer.drop 2))) =
              calculated_crc (buffer.take (4 + leU16 (buffer.drop 2)))
          · exact ⟨h0, h1, by omega, hcrc⟩
          · rw [if_pos hcrc] at hok
            exact absurd hok (by simp)
      · rw [if_pos h1] at hok
        exact absurd hok (by simp)
    · rw [if_pos h0] at hok
      exact absurd hok (by simp)

theorem C3_witness :
    parse_response [0xBB, 0xC2, 8, 0, 0, 0, 0, 0, 0, 0, 0, 0, 133, 107] =
      .fail .crcMismatch ∧
    ParseError.crcMismatch.isInvalid = true ∧
    ParseError.crcMismatch.isNeedMoreData = false :=
  (C3_decode_frame_checks [0xBB, 0xC2, 8, 0, 0, 0, 0, 0, 0, 0, 0, 0, 133, 107]
      (by decide)).2.2.1 (by decide) (by decide) (by decide) (by decide)

theorem leU64_u64le (x : Nat) (hx : x < 2 ^ 64) : leU64 (u64le x) = x := by
  simp only [u64le, leU64, List.getD_cons_zero, List.getD_cons_succ]
  omega

/-- C5: for all `startHz, stopHz < 2^64`, the query built by `get_spectrum`
with defaults `rfin=2, bw=3, speed=0` is exactly 25 bytes: marker `0xBB`,
command `0xC2`, u16LE payload length 19, u64LE start, u64LE stop, `rfin`,
`bw`, `speed`, then the two checksum bytes `(a, b)` over the preceding 23
bytes; the u64 fields decode back to the inputs, the trailing u16LE checksum
always equals the value `decodeFrame` computes over the frame prefix (the
round-trip checksum check passes), and feeding the command to
`parse_response` passes every framing check — it reaches the float stage
(whose 19-byte payload is not a float array, hence `structError`, not any
marker/length/checksum failure). -/
theorem C5_encode_query (s t : Nat) (hs : s < 2 ^ 64) (ht : t < 2 ^ 64) :
    (get_spectrum_command s t).length = 25 ∧
    (get_spectrum_command s t).take 4 = [0xBB, 0xC2, 19, 0] ∧
    ((get_spectrum_command s t).drop 4).take 8 = u64le s ∧
    leU64 (((get_spectrum_command s t).drop 4).take 8) = s ∧
    ((get_spectrum_command s t).drop 12).take 8 = u64le t ∧
    leU64 (((get_spectrum_command s t).drop 12).take 8) = t ∧
    ((get_spectrum_command s t).drop 20).take 3 = [2, 3, 0] ∧
    (get_spectrum_command s t).drop 23 =
      [(fletcher_checksum ((get_spectrum_command s t).take 23)).1,
       (fletcher_checksum ((get_spectrum_command s t).take 23)).2] ∧
    leU16 ((get_spectrum_command s t).drop 23) =
      calculated_crc ((get_spectrum_command s t).take 23) ∧
    parse_response (get_spectrum_command s t) = .fail .structError := by
  have htake : (get_spectrum_command s t).take 23 =
      [0xBB, 0xC2] ++ u16le 19 ++ u64le s ++ u64le t ++ [2, 3, 0] := by
    simp only [get_spectrum_command, u16le, u64le]
    rfl
  have hdrop : (get_spectrum_command s t).drop 23 =
      [(fletcher_checksum ([0xBB, 0xC2] ++ u16le 19 ++ u64le s ++ u64le t ++ [2, 3, 0])).1,
       (fletcher_checksum ([0xBB, 0xC2] ++ u16le 19 ++ u64le s ++ u64le t ++ [2, 3, 0])).2] := by
    simp only [get_spectrum_command, u16le, u64le]
    rfl
  refine ⟨?_, ?_, ?_, ?_, ?_, ?_, ?_, ?_, ?_, ?_⟩
  · simp only [get_spectrum_command, u16le, u64le]; rfl
  · simp only [get_spectrum_command, u16le, u64le]; rfl
  · simp only [get_spectrum_command, u16le, u64le]; rfl
  · have h : ((get_spectrum_command s t).drop 4).take 8 = u64le s := by
      simp only [get_spectrum_command, u16le, u64le]; rfl
    rw [h]; exact leU64_u64le s hs
  · simp only [get_spectrum_command, u16le, u64le]; rfl
  · have h : ((get_spectrum_command s t).drop 12).take 8 = u64le t := by
      simp only [get_spectrum_command, u16le, u64le]; rfl
    rw [h]; exact leU64_u64le t ht
  · simp only [get_spectrum_command, u16le, u64le]; rfl
  · rw [htake, hdrop]
  · rw [htake, hdrop]
    simp only [leU16, List.getD_cons_zero, List.getD_cons_succ, calculated_crc]
    ring
  · have hlen : (get_spectrum_command s t).length = 25 := by
      simp only [get_spectrum_command, u16le, u64le]; rfl
    have h0 : (get_spectrum_command s t).getD 0 0 = 0xBB := by
      simp only [get_spectrum_command, u16le, u64le]; rfl
    have h1 : (get_spectrum_command s t).getD 1 0 = 0xC2 := by
      simp only [get_spectrum_command, u16le, u64le]; rfl
    have hpl : leU16 ((get_spectrum_command s t).drop 2) = 19 := by
      simp only [get_spectrum_command, u16le, u64le]; rfl
    have hcrcEq : leU16 ((get_spectrum_command s t).drop 23) =
        calculated_crc ((get_spectrum_command s t).take 23) := by
      rw [htake, hdrop]
      simp only [leU16, List.getD_cons_zero, List.getD_cons_succ, calculated_crc]
      ring
    have hdata : ((get_spectrum_command s t).drop 4).take 19 =
        u64le s ++ u64le t ++ [2, 3, 0] := by
      simp only [get_spectrum_command, u16le, u64le]; rfl
    have hdlen : (((get_spectrum_command s t).drop 4).take 19).length = 19 := by
      rw [hdata]; simp only [u64le]; rfl
    simp only [parse_response, hpl]
    rw [if_neg (by omega), if_neg (not_not_intro h0), if_neg (not_not_intro h1),
      if_neg (by omega)]
    rw [show (4 : Nat) + 19 = 23 from rfl]
    rw [if_neg (not_not_intro hcrcEq)]
    simp only [decodeFloats, hdlen]
    rw [if_neg (by norm_num), if_pos (by norm_num)]

theorem C5_witness :
    (800000000 : Nat) < 2 ^ 64 ∧ (4800000000 : Nat) < 2 ^ 64 ∧
    (get_spectrum_command 800000000 4800000000).length = 25 ∧
    leU16 ((get_spectrum_command 800000000 4800000000).drop 23) =
      calculated_crc ((get_spectrum_command 800000000 4800000000).take 23) :=
  ⟨by norm_num, by norm_num,
   (C5_encode_query 800000000 4800000000 (by norm_num) (by norm_num)).1,
   (C5_encode_query 800000000 4800000000 (by norm_num) (by norm_num)).2.2.2.2.2.2.2.2.1⟩

theorem reassembleGo_nil (fuel : Nat) : reassembleGo fuel [] = ([], []) := by
  cases fuel with
  | zero => rfl
  | succ n => rfl

theorem reassembleGo_no_marker (fuel : Nat) (buf : List Nat)
    (h : ∀ x ∈ buf, x ≠ 0xBB) : reassembleGo fuel buf = ([], buf) := by
  cases fuel with
  | zero => rfl
  | succ n =>
    have hfind : buf.findIdx? (fun b => b == 0xBB) = none := by
      rw [List.findIdx?_eq_none_iff]
      intro x hx
      simpa using h x hx
    simp only [reassembleGo, hfind]

/-- A buffer that starts with a full candidate packet `p` (marker byte first,
declared length equal to `p`'s actual length): the loop slices off exactly
`p`, parses it, and continues on the remainder. -/
theorem reassembleGo_packet (fuel : Nat) (p rest : List Nat)
    (hp0 : p.getD 0 0 = 0xBB) (hpn : p ≠ [])
    (hlen : p.length = 6 + leU16 (p.drop 2)) :
    reassembleGo (fuel + 1) (p ++ rest) =
      match parse_response p with
      | .ok mags freqs =>
        ((mags, freqs) :: (reassembleGo fuel rest).1, (reassembleGo fuel rest).2)
      | .fail _ => reassembleGo fuel rest := by
  have hp6 : 6 ≤ p.length := by omega
  have hfind : (p ++ rest).findIdx? (fun b => b == 0xBB) = some 0 := by
    cases p with
    | nil => exact absurd rfl hpn
    | cons x p' =>
      have hx : x = 0xBB := by simpa using hp0
      simp [List.findIdx?_cons, hx]
  have hdrop2 : (p ++ rest).drop 2 = p.drop 2 ++ rest :=
    List.drop_append_of_le_length (by omega)
  have hleU16 : leU16 ((p ++ rest).drop 2) = leU16 (p.drop 2) := by
    rw [hdrop2]
    unfold leU16
    rw [List.getD_append _ _ _ 0 (by rw [List.length_drop]; omega),
      List.getD_append _ _ _ 1 (by rw [List.length_drop]; omega)]
  simp only [reassembleGo, hfind, List.drop_zero]
  rw [if_neg (by rw [List.length_append]; omega)]
  rw [hleU16, ← hlen]
  rw [if_neg (by rw [List.length_append]; omega)]
  rw [List.take_left, List.drop_left]

/-- C6 (amended): whenever ingest finds no occurrence of the `0xBB` marker in
the accumulated buffer, the Stream Reassembler stops and leaves the buffer
unchanged — it does NOT clear it, so markerless noise persists in the buffer
between calls (and no frame is emitted).  (The original claim — that the
buffer is cleared — fails: see the counterexample.) -/
theorem C6_no_marker_keeps_buffer (buf : List Nat) (h : ∀ x ∈ buf, x ≠ 0xBB) :
    ingest buf = ([], buf) :=
  reassembleGo_no_marker buf.length buf h

theorem C6_counterexample :
    ingest [0xAA] = ([], [0xAA]) ∧ (ingest [0xAA]).2 ≠ [] ∧
    (∀ x ∈ ([0xAA] : List Nat), x ≠ 0xBB) := by
  refine ⟨by decide, by decide, by decide⟩

theorem C6_witness : ingest [0xAA, 5, 0xC2] = ([], [0xAA, 5, 0xC2]) :=
  C6_no_marker_keeps_buffer [0xAA, 5, 0xC2] (by decide)

/-- C1 (amended): on checksum failure the Stream Reassembler advances past
the WHOLE candidate frame — the `6 + payloadLength` bytes delimited by the
candidate's length field — not past the marker byte only.  Consequently, when
the corrupted-checksum frame's length field still describes its actual extent
and a valid frame immediately follows it in the buffer, ingest emits exactly
the valid frame and loses none of its bytes; but corruption of the length
field itself can swallow bytes of the following frame (see the
counterexample, which refutes the original claim). -/
theorem C1_checksum_failure_skips_frame (c v : List Nat) (mags freqs : List ℚ)
    (hc0 : c.getD 0 0 = 0xBB) (hcn : c ≠ [])
    (hclen : c.length = 6 + leU16 (c.drop 2))
    (hcfail : parse_response c = .fail .crcMismatch)
    (hv0 : v.getD 0 0 = 0xBB) (hvn : v ≠ [])
    (hvlen : v.length = 6 + leU16 (v.drop 2))
    (hvok : parse_response v = .ok mags freqs) :
    ingest (c ++ v) = ([(mags, freqs)], []) ∧ ingest c = ([], []) := by
  have hc6 : 6 ≤ c.length := by omega
  have hv6 : 6 ≤ v.length := by omega
  constructor
  · unfold ingest
    have hL : (c ++ v).length = ((c ++ v).length - 1) + 1 := by
      rw [List.length_append]; omega
    rw [hL, reassembleGo_packet _ c v hc0 hcn hclen]
    simp only [hcfail]
    have hL2 : (c ++ v).length - 1 = ((c ++ v).length - 1 - 1) + 1 := by
      rw [List.length_append]; omega
    rw [hL2]
    conv_lhs => rw [← List.append_nil v]
    rw [reassembleGo_packet _ v [] hv0 hvn hvlen]
    simp only [hvok, reassembleGo_nil]
  · unfold ingest
    have hL : c.length = (c.length - 1) + 1 := by omega
    rw [hL]
    conv_lhs => rw [← List.append_nil c]
    rw [reassembleGo_packet _ c [] hc0 hcn hclen]
    simp only [hcfail, reassembleGo_nil]

/-- A checksum-valid 14-byte response frame carrying two zero floats
(one amplitude, one frequency). -/
def goodFrame : List Nat := mkPacket [0, 0, 0, 0, 0, 0, 0, 0]

/-- `goodFrame` with one payload byte corrupted (offset 4: `0 → 1`) and the
original checksum bytes kept: its length field is intact but its checksum no
longer validates. -/
def corruptFrame : List Nat := [0xBB, 0xC2, 8, 0, 1, 0, 0, 0, 0, 0, 0, 0, 133, 106]

/-- `goodFrame` with its length field corrupted (offset 2: `8 → 9`) and the
original checksum bytes kept: a corrupted-checksum frame whose declared
length no longer matches its actual extent. -/
def corruptLenFrame : List Nat := [0xBB, 0xC2, 9, 0, 0, 0, 0, 0, 0, 0, 0, 0, 133, 106]

theorem C1_counterexample :
    parse_response goodFrame = .ok [0] [0] ∧
    parse_response ((corruptLenFrame ++ goodFrame).take 15) = .fail .crcMismatch ∧
    ingest (corruptLenFrame ++ goodFrame) = ([], goodFrame.drop 1) ∧
    (ingest (corruptLenFrame ++ goodFrame)).1 = [] := by
  refine ⟨?_, by decide, by decide, by decide⟩
  norm_num [goodFrame, mkPacket, parse_response, decodeFloats, toWords, f32ToRat,
    leU16, calculated_crc, fletcher_checksum, u16le]

theorem C1_witness :
    ingest (corruptFrame ++ goodFrame) = ([([0], [0])], []) ∧
    ingest corruptFrame = ([], []) :=
  C1_checksum_failure_skips_frame corruptFrame goodFrame [0] [0]
    (by decide) (by decide) (by decide) (by decide)
    (by decide) (by decide) (by decide)
    (by norm_num [goodFrame, mkPacket, parse_response, decodeFloats, toWords, f32ToRat,
      leU16, calculated_crc, fletcher_checksum, u16le])

/-- C7 (amended): in the `SpectrumWorker.run` loop, a read that finds the
transport closed (`is_open` false) triggers reconnection within the loop —
the session keeps running — but the partial reassembly buffer is RETAINED
across the reconnect and fed into frame extraction together with the new
bytes; a transport read error (an exception from `self.ser.read`) is caught
by the loop's `except`/`finally`, which clears the buffer, closes the ports
and TERMINATES the session, exactly as an explicit shutdown request does.
(The original claim — that a transport error keeps the session running and
that the reconnect path discards the buffer — fails: see the
counterexample.) -/
theorem C7_session_lifecycle (s : SessionState) (h : s.running = true) :
    (runStep s .ioError =
      { s with running := false, serOpen := false, buffer := [] }) ∧
    (∀ bytes, bytes ≠ [] → s.serOpen = false →
      runStep s (.chunk bytes) =
        { s with serOpen := true,
                 buffer := (ingest (s.buffer ++ bytes)).2,
                 frames := s.frames ++ (ingest (s.buffer ++ bytes)).1 }) ∧
    (runStep s .shutdown = { s with running := false, serOpen := false }) := by
  refine ⟨?_, ?_, ?_⟩
  · simp [runStep, h]
  · intro bytes hb hopen
    have hbe : bytes.isEmpty = false := by
      cases bytes with
      | nil => exact absurd rfl hb
      | cons x xs => rfl
    simp [runStep, h, hopen, hbe]
  · simp [runStep, h]

theorem C7_counterexample :
    runStep ⟨true, true, [1, 2, 3], []⟩ .ioError = ⟨false, false, [], []⟩ ∧
    (runStep ⟨true, true, [1, 2, 3], []⟩ .ioError).running = false := by
  refine ⟨by decide, by decide⟩

theorem C7_witness :
    runStep ⟨true, false, [7], []⟩ (.chunk [1]) = ⟨true, true, [7, 1], []⟩ ∧
    runStep ⟨true, true, [7], []⟩ .shutdown = ⟨false, false, [7], []⟩ := by
  constructor
  · have h := (C7_session_lifecycle ⟨true, false, [7], []⟩ rfl).2.1 [1] (by decide) rfl
    rw [h]
    decide
  · exact (C7_session_lifecycle ⟨true, true, [7], []⟩ rfl).2.2

theorem detStep_exceed_noalert (amp hi : ℚ) (st : DetState) (hx : hi < amp)
    (hno : ¬ (3 ≤ st.counter + 1 ∧ st.alertActive = false)) :
    detStep amp hi st = (⟨st.counter + 1, st.alertActive⟩, false) := by
  unfold detStep
  rw [if_pos hx, if_neg hno]

theorem detStep_exceed_alert (amp hi : ℚ) (st : DetState) (hx : hi < amp)
    (h3 : 3 ≤ st.counter + 1) (ha : st.alertActive = false) :
    detStep amp hi st = (⟨st.counter + 1, true⟩, true) := by
  unfold detStep
  rw [if_pos hx, if_pos ⟨h3, ha⟩]

theorem detStep_low (amp hi : ℚ) (st : DetState) (hy : amp ≤ hi - 1 / 2) :
    detStep amp hi st = (⟨0, false⟩, false) := by
  have hx : ¬ hi < amp := by linarith
  unfold detStep
  rw [if_neg hx, if_pos hy]

theorem detStep_mid (amp hi : ℚ) (st : DetState) (hx : ¬ hi < amp)
    (hy : ¬ amp ≤ hi - 1 / 2) : detStep amp hi st = (st, false) := by
  unfold detStep
  rw [if_neg hx, if_neg hy]

theorem runDet_cons (amp hi : ℚ) (rest : List (ℚ × ℚ)) (st : DetState) :
    runDet ((amp, hi) :: rest) st =
      ((runDet rest (detStep amp hi st).1).1,
       (if (detStep amp hi st).2 then 1 else 0) +
         (runDet rest (detStep amp hi st).1).2) := rfl

theorem runDet_low_count : ∀ (cycles : List (ℚ × ℚ)) (st : DetState),
    st.counter + cycles.countP (fun c => decide (c.2 < c.1)) < 3 →
    (runDet cycles st).2 = 0
  | [], st, _ => rfl
  | (amp, hi) :: rest, st, h => by
    rw [List.countP_cons] at h
    by_cases hx : hi < amp
    · simp only [decide_eq_true_eq] at h
      rw [if_pos hx] at h
      rw [runDet_cons,
        detStep_exceed_noalert amp hi st hx (fun hc => by omega)]
      simp only [Bool.false_eq_true, if_false, Nat.zero_add]
      exact runDet_low_count rest ⟨st.counter + 1, st.alertActive⟩ (by simp; omega)
    · simp only [decide_eq_true_eq] at h
      rw [if_neg hx] at h
      by_cases hy : amp ≤ hi - 1 / 2
      · rw [runDet_cons, detStep_low amp hi st hy]
        simp only [Bool.false_eq_true, if_false, Nat.zero_add]
        exact runDet_low_count rest ⟨0, false⟩ (by simp; omega)
      · rw [runDet_cons, detStep_mid amp hi st hx hy]
        simp only [Bool.false_eq_true, if_false, Nat.zero_add]
        exact runDet_low_count rest st (by omega)

theorem runDet_active_no_fire : ∀ (cycles : List (ℚ × ℚ)) (st : DetState),
    st.alertActive = true → (∀ c ∈ cycles, ¬ c.1 ≤ c.2 - 1 / 2) →
    (runDet cycles st).2 = 0 ∧ (runDet cycles st).1.alertActive = true
  | [], st, ha, _ => ⟨rfl, ha⟩
  | (amp, hi) :: rest, st, ha, h => by
    have hy : ¬ amp ≤ hi - 1 / 2 := h (amp, hi) (List.mem_cons_self _ _)
    have hrest : ∀ c ∈ rest, ¬ c.1 ≤ c.2 - 1 / 2 :=
      fun c hc => h c (List.mem_cons_of_mem _ hc)
    by_cases hx : hi < amp
    · rw [runDet_cons,
        detStep_exceed_noalert amp hi st hx (fun hc => by rw [ha] at hc; simp at hc)]
      simp only [Bool.false_eq_true, if_false, Nat.zero_add]
      exact runDet_active_no_fire rest ⟨st.counter + 1, st.alertActive⟩ ha hrest
    · rw [runDet_cons, detStep_mid amp hi st hx hy]
      simp only [Bool.false_eq_true, if_false, Nat.zero_add]
      exact runDet_active_no_fire rest st ha hrest

/-- C2: for every range and every sequence of polling cycles (each given as
its working amplitude and that cycle's `threshold_high`;
`threshold_low = threshold_high - 0.5`): (1) if the working amplitude exceeds
`threshold_high` on fewer than `stability_duration = 3` cycles, no alert
fires; (2) if it exceeds `threshold_high` for at least 3 consecutive
qualifying cycles starting from a fresh (not alert-active) state, exactly one
alert fires; (3) while the range is alert-active, no further alert fires
until the working amplitude drops to or below `threshold_low`; (4) a cycle at
or below `threshold_low` resets the alert flag and the stability counter. -/
theorem C2_hysteresis_stability :
    (∀ cycles : List (ℚ × ℚ),
      cycles.countP (fun c => decide (c.2 < c.1)) < 3 →
      (runDet cycles ⟨0, false⟩).2 = 0) ∧
    (∀ cycles : List (ℚ × ℚ), (∀ c ∈ cycles, c.2 < c.1) → 3 ≤ cycles.length →
      (runDet cycles ⟨0, false⟩).2 = 1) ∧
    (∀ (cycles : List (ℚ × ℚ)) (st : DetState), st.alertActive = true →
      (∀ c ∈ cycles, ¬ c.1 ≤ c.2 - 1 / 2) →
      (runDet cycles st).2 = 0) ∧
    (∀ (amp hi : ℚ) (st : DetState), amp ≤ hi - 1 / 2 →
      detStep amp hi st = (⟨0, false⟩, false)) := by
  refine ⟨?_, ?_, ?_, ?_⟩
  · intro cycles h
    exact runDet_low_count cycles ⟨0, false⟩ (by simpa using h)
  · intro cycles hall hlen
    match cycles, hlen with
    | (a1, h1) :: (a2, h2) :: (a3, h3) :: rest, _ =>
      have hx1 : h1 < a1 := hall (a1, h1) (by simp)
      have hx2 : h2 < a2 := hall (a2, h2) (by simp)
      have hx3 : h3 < a3 := hall (a3, h3) (by simp)
      have hrest : ∀ c ∈ rest, ¬ c.1 ≤ c.2 - 1 / 2 := by
        intro c hc
        have := hall c (by simp [hc])
        intro hle
        linarith
      have hs1 : detStep a1 h1 ⟨0, false⟩ = (⟨1, false⟩, false) :=
        detStep_exceed_noalert a1 h1 ⟨0, false⟩ hx1 (fun hc => absurd hc.1 (by norm_num))
      have hs2 : detStep a2 h2 ⟨1, false⟩ = (⟨2, false⟩, false) :=
        detStep_exceed_noalert a2 h2 ⟨1, false⟩ hx2 (fun hc => absurd hc.1 (by norm_num))
      have hs3 : detStep a3 h3 ⟨2, false⟩ = (⟨3, true⟩, true) :=
        detStep_exceed_alert a3 h3 ⟨2, false⟩ hx3 (by norm_num) rfl
      have hfin := runDet_active_no_fire rest ⟨3, true⟩ rfl hrest
      simp only [runDet_cons, hs1, hs2, hs3, hfin.1]
      norm_num
  · intro cycles st ha h
    exact (runDet_active_no_fire cycles st ha h).1
  · intro amp hi st hy
    exact detStep_low amp hi st hy

theorem C2_witness :
    (runDet [(1, 0), (1, 0)] ⟨0, false⟩).2 = 0 ∧
    (runDet [(1, 0), (1, 0), (1, 0), (1, 0)] ⟨0, false⟩).2 = 1 ∧
    detStep (-1) 0 ⟨2, true⟩ = (⟨0, false⟩, false) :=
  ⟨C2_hysteresis_stability.1 [(1, 0), (1, 0)] (by norm_num),
   C2_hysteresis_stability.2.1 [(1, 0), (1, 0), (1, 0), (1, 0)]
     (by intro c hc; fin_cases hc <;> norm_num)
     (by norm_num),
   C2_hysteresis_stability.2.2.2 (-1) 0 ⟨2, true⟩ (by norm_num)⟩

theorem calibRangesInitial_getD :
    ∀ (ranges : List SRange) (k i : Nat) (outcomes : Nat → List (Option ℚ)),
      i < ranges.length →
      (calibRangesInitial k outcomes ranges).getD i ⟨0, 0, none⟩ =
        calibrateRangeInitial (ranges.getD i ⟨0, 0, none⟩) (outcomes (k + i))
  | [], _, i, _, h => by simp at h
  | r :: rs, k, 0, outcomes, _ => by
    simp [calibRangesInitial]
  | r :: rs, k, i + 1, outcomes, h => by
    simp only [calibRangesInitial, List.getD_cons_succ]
    rw [calibRangesInitial_getD rs (k + 1) i outcomes (by simpa using h)]
    ring_nf

theorem calibRangesContinuous_getD :
    ∀ (ranges : List SRange) (k i : Nat) (outcomes : Nat → List (Option ℚ)),
      i < ranges.length →
      (calibRangesContinuous k outcomes ranges).getD i ⟨0, 0, none⟩ =
        calibrateRangeContinuous (ranges.getD i ⟨0, 0, none⟩) (outcomes (k + i))
  | [], _, i, _, h => by simp at h
  | r :: rs, k, 0, outcomes, _ => by
    simp [calibRangesContinuous]
  | r :: rs, k, i + 1, outcomes, h => by
    simp only [calibRangesContinuous, List.getD_cons_succ]
    rw [calibRangesContinuous_getD rs (k + 1) i outcomes (by simpa using h)]
    ring_nf

/-- C8: for every configured range with at least one successful query,
initial auto-calibration sets the range's threshold to
`round(median(per-query maxima) + 1, 1)`, while the continuous (2-minute)
recalibration loop sets it to `round(max(per-query maxima) + 1, 1)`; when no
transport is open, both calibrations leave every range (and hence every
threshold) untouched; a range all of whose queries failed is also left
untouched. -/
theorem C8_calibration :
    (∀ ranges outcomes, auto_calibrate_thresholds false ranges outcomes = ranges) ∧
    (∀ ranges outcomes, calibration_process_pass false ranges outcomes = ranges) ∧
    (∀ (ranges : List SRange) (outcomes : Nat → List (Option ℚ)) (i : Nat),
      i < ranges.length →
      (auto_calibrate_thresholds true ranges outcomes).getD i ⟨0, 0, none⟩ =
        (if ((outcomes i).filterMap id).isEmpty then ranges.getD i ⟨0, 0, none⟩
         else { ranges.getD i ⟨0, 0, none⟩ with
                threshold := some (round1 (npMedian ((outcomes i).filterMap id) + 1)) })) ∧
    (∀ (ranges : List SRange) (outcomes : Nat → List (Option ℚ)) (i : Nat),
      i < ranges.length →
      (calibration_process_pass true ranges outcomes).getD i ⟨0, 0, none⟩ =
        (if ((outcomes i).filterMap id).isEmpty then ranges.getD i ⟨0, 0, none⟩
         else { ranges.getD i ⟨0, 0, none⟩ with
                threshold := some (round1 (pyMax ((outcomes i).filterMap id) + 1)) })) := by
  refine ⟨?_, ?_, ?_, ?_⟩
  · intro ranges outcomes
    simp [auto_calibrate_thresholds]
  · intro ranges outcomes
    simp [calibration_process_pass]
  · intro ranges outcomes i h
    unfold auto_calibrate_thresholds
    rw [if_pos rfl, calibRangesInitial_getD ranges 0 i outcomes h]
    simp only [Nat.zero_add, calibrateRangeInitial]
  · intro ranges outcomes i h
    unfold calibration_process_pass
    rw [if_pos rfl, calibRangesContinuous_getD ranges 0 i outcomes h]
    simp only [Nat.zero_add, calibrateRangeContinuous]

theorem C8_witness :
    (auto_calibrate_thresholds true [⟨0, 100, none⟩]
        (fun _ => [some 5, none, some 3])).getD 0 ⟨0, 0, none⟩ = ⟨0, 100, some 5⟩ ∧
    (calibration_process_pass true [⟨0, 100, none⟩]
        (fun _ => [some 5, none, some 3])).getD 0 ⟨0, 0, none⟩ = ⟨0, 100, some 6⟩ ∧
    auto_calibrate_thresholds false [⟨0, 100, none⟩]
        (fun _ => [some 5, none, some 3]) = [⟨0, 100, none⟩] := by
  have hfm : List.filterMap id [some (5 : ℚ), none, some 3] = [5, 3] := rfl
  refine ⟨?_, ?_, ?_⟩
  · rw [C8_calibration.2.2.1 [⟨0, 100, none⟩] (fun _ => [some 5, none, some 3]) 0
      (by norm_num)]
    rw [hfm]
    norm_num [npMedian, round1, List.insertionSort, List.orderedInsert]
  · rw [C8_calibration.2.2.2 [⟨0, 100, none⟩] (fun _ => [some 5, none, some 3]) 0
      (by norm_num)]
    rw [hfm]
    norm_num [pyMax, round1]
  · exact C8_calibration.1 [⟨0, 100, none⟩] (fun _ => [some 5, none, some 3])
